import Mathlib

/-!
A shallow embedding of `pipstrap.py`: a trust-root bootstrapper that downloads
a pinned set of archives from a list of mirror bases, verifies each against a
pinned SHA-256 hex digest, and installs them.  External effects (the network,
the hash function, the environment, the installer subprocess) are explicit
parameters; the control flow of `hashed_download`, `hashed_downloads`,
`get_index_bases` and `main` is translated line by line.
-/

namespace Pipstrap

/-- The body of one HTTP response, as a byte sequence. -/
abbrev Bytes := List Nat

/-- The network: maps a URL to the response bytes, or to the message of the
`URLError` that opening/reading the URL raises. -/
abbrev Network := String → Except String Bytes

/-- A hex-digest function, modelling `sha256().hexdigest()`.  Feeding the
response chunk by chunk to `update` digests exactly the concatenation of all
chunks, so the digest is a function of the full byte sequence. -/
abbrev HashFn := Bytes → String

/-- Does the character list start with the given pattern? -/
def startsWithChars : List Char → List Char → Bool
  | _, [] => true
  | [], _ :: _ => false
  | c :: cs, d :: ds => c = d && startsWithChars cs ds

/-- Split a character list at the first occurrence of a (non-empty) separator
pattern; `none` when the pattern does not occur. -/
def breakAtSub (sep : List Char) : List Char → Option (List Char × List Char)
  | [] => none
  | c :: cs =>
      if startsWithChars (c :: cs) sep then some ([], (c :: cs).drop sep.length)
      else (breakAtSub sep cs).map (fun pr => (c :: pr.1, pr.2))

/-- Split on every occurrence of a character, keeping empty fields — the
behaviour of Python's `str.split(sep)` with an explicit separator. -/
def splitOnCharL (sep : Char) : List Char → List (List Char)
  | [] => [[]]
  | c :: cs =>
      if c = sep then [] :: splitOnCharL sep cs
      else
        match splitOnCharL sep cs with
        | [] => [[c]]
        | g :: gs => (c :: g) :: gs

/-- `urlparse(url).scheme` for URLs of the form `scheme://host/path`. -/
def urlScheme (url : String) : String :=
  match breakAtSub "://".data url.data with
  | some pr => String.mk pr.1
  | none => ""

/-- `urlparse(url).path` for URLs of the form `scheme://host/path`: everything
from the first slash after the authority. -/
def urlPath (url : String) : String :=
  match breakAtSub "://".data url.data with
  | some pr =>
      match breakAtSub "/".data pr.2 with
      | some pr2 => String.mk ('/' :: pr2.2)
      | none => ""
  | none => url

/-- `parsed_url.path.split('/')[-1]`: the URL's final path segment. -/
def lastUrlSegment (url : String) : String :=
  String.mk ((splitOnCharL '/' (urlPath url).data).getLastD [])

/-- `os.path.join(temp, name)` for a relative `name` (the final URL segment
never contains a slash). -/
def osPathJoin (a b : String) : String := a ++ "/" ++ b

/-- Python `s.rstrip('/')`: remove every trailing `'/'`. -/
def rstripSlashes (s : String) : String :=
  String.mk ((s.data.reverse.dropWhile (fun c => c = '/')).reverse)

def PIP_VERSION : String := "9.0.1"

def DEFAULT_INDEX_BASE : String := "https://pypi.python.org"

def MIRRORS : List String :=
  ["https://pypi.tuna.tsinghua.edu.cn",
   "https://pypi.doubanio.com",
   "https://mirrors.ustc.edu.cn/pypi/web"]

/-- A version, compared per component numerically, as
`distutils.version.StrictVersion` compares plain `major.minor.patch`
versions (tuples of ints, not strings). -/
abbrev Version := Nat × Nat × Nat

/-- Strict `StrictVersion` comparison `a < b` (numeric, lexicographic over
the three components). -/
def verLT (a b : Version) : Bool :=
  decide (a.1 < b.1 ∨ (a.1 = b.1 ∧
    (a.2.1 < b.2.1 ∨ (a.2.1 = b.2.1 ∧ a.2.2 < b.2.2))))

/-- `StrictVersion` comparison `a ≤ b` (numeric, lexicographic over the
three components). -/
def verLE (a b : Version) : Bool :=
  decide (a.1 < b.1 ∨ (a.1 = b.1 ∧
    (a.2.1 < b.2.1 ∨ (a.2.1 = b.2.1 ∧ a.2.2 ≤ b.2.2))))

/-- Parse one decimal digit. -/
def charDigit (c : Char) : Option Nat :=
  if '0' ≤ c ∧ c ≤ '9' then some (c.toNat - '0'.toNat) else none

def parseNatAux : List Char → Nat → Option Nat
  | [], acc => some acc
  | c :: cs, acc =>
      match charDigit c with
      | some d => parseNatAux cs (acc * 10 + d)
      | none => none

/-- Parse a non-empty all-digit character list as a natural number. -/
def parseNatChars (cs : List Char) : Option Nat :=
  if cs.isEmpty then none else parseNatAux cs 0

/-- Parse a dotted numeric version string as `StrictVersion` does for plain
numeric versions (`major.minor` or `major.minor.patch`; a missing patch
component is 0). -/
def parseVersion (s : String) : Version :=
  match (splitOnCharL '.' s.data).map parseNatChars with
  | [some a, some b] => (a, b, 0)
  | [some a, some b, some c] => (a, b, c)
  | _ => (0, 0, 0)

/-- `maybe_argparse`: wheel's conditional dependency on argparse, present only
when the interpreter is older than 2.7.0. -/
def maybe_argparse (version_info : Version) : List (String × String) :=
  if verLT version_info (2, 7, 0) then
    [("18/dd/e617cfc3f6210ae183374cd9f6a26b20514bbb5a792af97949c5aacddf0f/argparse-1.4.0.tar.gz",
      "62b089a55be1d8949cd2bc7e0df0bddb9e028faefc8c32038cc84862aefdd6e4")]
  else []

/-- The pinned manifest: (relative path, expected SHA-256 hex digest) pairs. -/
def PACKAGES (version_info : Version) : List (String × String) :=
  maybe_argparse version_info ++
  [("/11/b6/abcb525026a4be042b486df43905d6893fb04f05aac21c32c638e939e447/pip-" ++
      PIP_VERSION ++ ".tar.gz",
    "09f243e1a7b461f654c26a725fa373211bb7ff17a9300058b205c61658ca940d"),
   ("69/65/4c544cde88d4d876cdf5cbc5f3f15d02646477756d89547e9a7ecd6afa76/setuptools-20.2.2.tar.gz",
    "24fcfc15364a9fe09a220f37d2dcedc849795e3de3e4b393ee988e66a9cbd85a"),
   ("c9/1d/bd19e691fd4cfe908c76c429fe6e4436c9e83583c4414b54f6c85471954a/wheel-0.29.0.tar.gz",
    "1ebb8ad7e26b448e9caa4773d2357849bf80ff9e313964bcaf79cbf0201a1648")]

/-- The handler classes installed by `build_opener(HTTPSHandler())`: urllib's
default handlers plus the explicitly passed `HTTPSHandler` instance. -/
inductive Handler where
  | proxyHandler
  | unknownHandler
  | httpHandler
  | httpDefaultErrorHandler
  | httpRedirectHandler
  | ftpHandler
  | fileHandler
  | httpsHandler
  | httpErrorProcessor
  deriving DecidableEq

def build_opener_handlers : List Handler :=
  [.proxyHandler, .unknownHandler, .httpHandler, .httpDefaultErrorHandler,
   .httpRedirectHandler, .ftpHandler, .fileHandler, .httpsHandler,
   .httpErrorProcessor]

/-- `opener(using_https)`: when `using_https` is set, the loop removes the
single `HTTPHandler` instance from the handler list (`HTTPSHandler` is not an
`HTTPHandler` subclass, so it stays). -/
def opener (using_https : Bool) : List Handler :=
  if using_https then
    build_opener_handlers.filter (fun h => decide (h ≠ Handler.httpHandler))
  else build_opener_handlers

/-- The handler list `hashed_download` opens `url` with:
`opener(using_https=parsed_url.scheme == 'https')`. -/
def openerForUrl (url : String) : List Handler :=
  opener (urlScheme url == "https")

/-- The exceptions the download pipeline can raise. -/
inductive DlError where
  | urlError (msg : String)
  | hashError (url path actual expected : String)
  | unboundLocalError
  deriving DecidableEq

/-- `hashed_download(url, temp, digest)`: fetch `url`, write the body to
`join(temp, parsed_url.path.split('/')[-1])`, and compare the SHA-256 hex
digest of the bytes with `digest` by string equality.  The second component
lists the files written: nothing on a network failure, and the downloaded
file — which a digest mismatch leaves in place — otherwise. -/
def hashed_download (net : Network) (sha256hex : HashFn) (url temp digest : String) :
    Except DlError String × List String :=
  match net url with
  | .error e => (.error (.urlError e), [])
  | .ok bytes =>
      let path := osPathJoin temp (lastUrlSegment url)
      let actual_digest := sha256hex bytes
      if actual_digest ≠ digest then
        (.error (.hashError url path actual_digest digest), [path])
      else
        (.ok path, [path])

/-- The URL an entry is fetched from: `base + '/packages/' + path`. -/
def entryUrl (base : String) (entry : String × String) : String :=
  base ++ "/packages/" ++ entry.1

/-- One mirror attempt: the comprehension
`[hashed_download(base + '/packages/' + path, temp, digest) for path, digest in PACKAGES]`,
which downloads the entries strictly in manifest order and stops at the first
raised exception.  Returns (outcome, URLs fetched in order, files written). -/
def downloadAttempt (net : Network) (sha256hex : HashFn) (temp base : String) :
    List (String × String) → Except DlError (List String) × List String × List String
  | [] => (.ok [], [], [])
  | entry :: rest =>
      let url := entryUrl base entry
      let d := hashed_download net sha256hex url temp entry.2
      match d.1 with
      | .error e => (.error e, [url], d.2)
      | .ok p =>
          let r := downloadAttempt net sha256hex temp base rest
          (r.1.map (fun ps => p :: ps), url :: r.2.1, d.2 ++ r.2.2)

/-- The loop of `hashed_downloads(temp, index_bases)`, generalized over the
manifest.  Each base is tried in order; a `URLError` from an attempt is saved
in `saved_exc` and the next base tried; any other exception (in particular
`HashError`) propagates immediately.  When the bases run out, the last saved
`URLError` is re-raised — and if no base was ever tried, `saved_exc` was never
bound and Python raises `UnboundLocalError` instead. -/
def hashed_downloadsGo (net : Network) (sha256hex : HashFn) (temp : String)
    (entries : List (String × String)) :
    List String → Option String → Except DlError (List String) × List String × List String
  | [], none => (.error .unboundLocalError, [], [])
  | [], some e => (.error (.urlError e), [], [])
  | base :: rest, _saved =>
      let a := downloadAttempt net sha256hex temp base entries
      match a.1 with
      | .ok paths => (.ok paths, a.2.1, a.2.2)
      | .error (.urlError e) =>
          let r := hashed_downloadsGo net sha256hex temp entries rest (some e)
          (r.1, a.2.1 ++ r.2.1, a.2.2 ++ r.2.2)
      | .error e => (.error e, a.2.1, a.2.2)

/-- `hashed_downloads(temp, index_bases)` itself, over the pinned manifest. -/
def hashed_downloads (net : Network) (sha256hex : HashFn) (version_info : Version)
    (temp : String) (index_bases : List String) :
    Except DlError (List String) × List String × List String :=
  hashed_downloadsGo net sha256hex temp (PACKAGES version_info) index_bases none

/-- `get_index_bases()`: resolve the mirror list from the `PIPSTRAP_MIRRORS`
environment variable (`none` models an unset variable; `environ.get(..., '')`
maps it to `''`). -/
def get_index_bases (pipstrap_mirrors : Option String) : List String :=
  let env_var := pipstrap_mirrors.getD ""
  if env_var = "" then [DEFAULT_INDEX_BASE]
  else if env_var = "yes" then [DEFAULT_INDEX_BASE] ++ MIRRORS
  else [rstripSlashes env_var]

/-- Everything `main()` reads from outside the process: the parsed output of
`pip --version` (its second whitespace-separated token, as a version), the
network, the hash function, the `PIPSTRAP_MIRRORS` variable, the directory
`mkdtemp(prefix='pipstrap-')` creates, and whether the
`pip install --no-index --no-deps -U [--no-cache-dir] <paths>` subprocess
exits zero. -/
structure World where
  pip_version : Version
  net : Network
  sha256hex : HashFn
  pipstrap_mirrors : Option String
  tempDir : String
  installOk : Bool

/-- The exceptions that can escape `main()`. -/
inductive MainErr where
  | urlError (msg : String)
  | calledProcessError
  | unboundLocalError
  deriving DecidableEq

/-- The observable outcome of one `main()` run.  `exit = some c` means `main`
returned `c`; `exit = none` means an exception escaped `main`, so
`exit(main())` never runs and the interpreter dies with a traceback and a
non-zero status.  `filesOnDisk` lists the downloaded files still present when
the run ends (`rmtree(temp)` removes them all). -/
structure MainResult where
  exit : Option Nat
  raised : Option MainErr
  tempCreated : Bool
  tempRemoved : Bool
  printed : Option String
  fetched : List String
  filesOnDisk : List String
  deriving DecidableEq

/-- `str(HashError(url, path, actual, expected))`. -/
def hashErrorStr (url path actual expected : String) : String :=
  url ++ " did not match the expected hash " ++ expected ++ ". Instead, it was " ++
    actual ++ ". The file (left at " ++ path ++ ") may have been tampered with."

/-- `main()`, generalized over the manifest: short-circuit when the installed
pip already satisfies the pinned version; otherwise make the workspace, run
the downloads and the installer, and apply the cleanup policy — `HashError`
prints its message and returns 1 leaving the workspace in place, every other
exception removes the workspace and is re-raised.  (`has_pip_cache` only
selects the install command's flags, which the `installOk` outcome already
abstracts.) -/
def mainWith (entries : List (String × String)) (w : World) : MainResult :=
  let min_pip_version := parseVersion PIP_VERSION
  if verLE min_pip_version w.pip_version then
    ⟨some 0, none, false, false, none, [], []⟩
  else
    let dl := hashed_downloadsGo w.net w.sha256hex w.tempDir entries
                (get_index_bases w.pipstrap_mirrors) none
    match dl.1 with
    | .ok _downloads =>
        if w.installOk then ⟨some 0, none, true, true, none, dl.2.1, []⟩
        else ⟨none, some .calledProcessError, true, true, none, dl.2.1, []⟩
    | .error (.hashError u p a e) =>
        ⟨some 1, none, true, false, some (hashErrorStr u p a e), dl.2.1, dl.2.2⟩
    | .error (.urlError e) =>
        ⟨none, some (.urlError e), true, true, none, dl.2.1, []⟩
    | .error .unboundLocalError =>
        ⟨none, some .unboundLocalError, true, true, none, dl.2.1, []⟩

/-- `main()` over the pinned manifest. -/
def main (version_info : Version) (w : World) : MainResult :=
  mainWith (PACKAGES version_info) w

/-- A small concrete network for witnesses: base `http://b` serves two
entries; every other URL fails with a `URLError`. -/
def tNet : Network := fun url =>
  if url = "http://b/packages/p1" then .ok [1]
  else if url = "http://b/packages/p2" then .ok [2]
  else .error "refused"

/-- A concrete digest function for witnesses: the byte sequence `[1]` hashes
to `"d1"`, everything else to `"x"`. -/
def tSha : HashFn := fun bytes => if bytes = [1] then "d1" else "x"

/-- A concrete network for witnesses where every URL fails, with a message
naming the base that failed. -/
def t2Net : Network := fun url =>
  if url = "http://m1/packages/p1" then .error "e1" else .error "e2"

/-! ### Helper lemmas about the download pipeline -/

theorem hashed_download_ok_inv (net : Network) (sha : HashFn) (url temp digest p : String) :
    (hashed_download net sha url temp digest).1 = .ok p →
    p = osPathJoin temp (lastUrlSegment url) ∧
    (hashed_download net sha url temp digest).2 = [p] := by
  unfold hashed_download
  cases net url with
  | error e => intro h; simp at h
  | ok bytes =>
      by_cases hd : sha bytes = digest
      · simp [hd]
        intro h
        simp [h]
      · simp [hd]

theorem hashed_download_hash_inv (net : Network) (sha : HashFn)
    (url temp digest u p a e : String) :
    (hashed_download net sha url temp digest).1 = .error (.hashError u p a e) →
    u = url ∧ e = digest ∧ p = osPathJoin temp (lastUrlSegment url) ∧
    (hashed_download net sha url temp digest).2 = [p] := by
  unfold hashed_download
  cases net url with
  | error m => intro h; simp at h
  | ok bytes =>
      by_cases hd : sha bytes = digest <;> simp [hd]
      intro h1 h2 h3 h4
      exact ⟨h1.symm, h4.symm, h2.symm, h2⟩

theorem hashed_download_not_unbound (net : Network) (sha : HashFn)
    (url temp digest : String) :
    (hashed_download net sha url temp digest).1 ≠ .error .unboundLocalError := by
  unfold hashed_download
  cases net url with
  | error m => simp
  | ok bytes => by_cases hd : sha bytes = digest <;> simp [hd]

theorem except_map_id {ε α : Type} (x : Except ε α) : x.map (fun a => a) = x := by
  cases x <;> rfl

theorem downloadAttempt_cons (net : Network) (sha : HashFn) (temp base : String)
    (ent : String × String) (rest : List (String × String)) :
    downloadAttempt net sha temp base (ent :: rest) =
      match (hashed_download net sha (entryUrl base ent) temp ent.2).1 with
      | .error e => (.error e, [entryUrl base ent],
          (hashed_download net sha (entryUrl base ent) temp ent.2).2)
      | .ok p =>
          ((downloadAttempt net sha temp base rest).1.map (fun ps => p :: ps),
           entryUrl base ent :: (downloadAttempt net sha temp base rest).2.1,
           (hashed_download net sha (entryUrl base ent) temp ent.2).2 ++
             (downloadAttempt net sha temp base rest).2.2) := rfl

theorem downloadAttempt_ok_inv (net : Network) (sha : HashFn) (temp base : String)
    (es : List (String × String)) :
    ∀ ps : List String, (downloadAttempt net sha temp base es).1 = .ok ps →
    ps = es.map (fun ent => osPathJoin temp (lastUrlSegment (entryUrl base ent))) ∧
    (downloadAttempt net sha temp base es).2.1 = es.map (entryUrl base) := by
  induction es with
  | nil =>
      intro ps h
      simp [downloadAttempt] at h ⊢
      exact h
  | cons ent rest ih =>
      intro ps h
      rw [downloadAttempt_cons] at h ⊢
      cases hdr : (hashed_download net sha (entryUrl base ent) temp ent.2).1 with
      | error e => simp only [hdr] at h; simp at h
      | ok p =>
          simp only [hdr] at h ⊢
          cases hrr : (downloadAttempt net sha temp base rest).1 with
          | error e => simp only [hrr, Except.map] at h; simp at h
          | ok psr =>
              simp only [hrr, Except.map] at h
              obtain ⟨hmap, hurls⟩ := ih psr hrr
              obtain ⟨hp, _⟩ := hashed_download_ok_inv net sha (entryUrl base ent) temp ent.2 p hdr
              simp only [List.map_cons]
              constructor
              · cases h
                rw [hp, hmap]
              · simp [hurls]

theorem downloadAttempt_append (net : Network) (sha : HashFn) (temp base : String)
    (es1 : List (String × String)) :
    ∀ ps1 : List String, (downloadAttempt net sha temp base es1).1 = .ok ps1 →
    ∀ es2 : List (String × String),
    downloadAttempt net sha temp base (es1 ++ es2) =
      ((downloadAttempt net sha temp base es2).1.map (fun ps => ps1 ++ ps),
       (downloadAttempt net sha temp base es1).2.1 ++
         (downloadAttempt net sha temp base es2).2.1,
       (downloadAttempt net sha temp base es1).2.2 ++
         (downloadAttempt net sha temp base es2).2.2) := by
  induction es1 with
  | nil =>
      intro ps1 h es2
      simp only [downloadAttempt] at h
      cases h
      simp [downloadAttempt, except_map_id]
  | cons ent rest ih =>
      intro ps1 h es2
      rw [downloadAttempt_cons] at h
      rw [List.cons_append, downloadAttempt_cons, downloadAttempt_cons]
      cases hdr : (hashed_download net sha (entryUrl base ent) temp ent.2).1 with
      | error e => simp only [hdr] at h; simp at h
      | ok p =>
          simp only [hdr] at h ⊢
          cases hrr : (downloadAttempt net sha temp base rest).1 with
          | error e => simp only [hrr, Except.map] at h; simp at h
          | ok psr =>
              simp only [hrr, Except.map] at h
              cases h
              have hrw := ih psr hrr es2
              simp only [hrw, hrr, Except.map]
              cases hes : (downloadAttempt net sha temp base es2).1 <;>
                simp [Except.map, List.append_assoc]

theorem downloadAttempt_not_unbound (net : Network) (sha : HashFn) (temp base : String)
    (es : List (String × String)) :
    (downloadAttempt net sha temp base es).1 ≠ .error .unboundLocalError := by
  induction es with
  | nil => simp [downloadAttempt]
  | cons ent rest ih =>
      rw [downloadAttempt_cons]
      cases hdr : (hashed_download net sha (entryUrl base ent) temp ent.2).1 with
      | error e =>
          have := hashed_download_not_unbound net sha (entryUrl base ent) temp ent.2
          rw [hdr] at this
          simpa using fun hcontra => this (by rw [hcontra])
      | ok p =>
          cases hrr : (downloadAttempt net sha temp base rest).1 with
          | error e =>
              rw [hrr] at ih
              simp only [hrr, Except.map]
              simpa using fun hcontra => ih (by rw [hcontra])
          | ok psr => simp [hrr, Except.map]

theorem downloadAttempt_hash_file_mem (net : Network) (sha : HashFn) (temp base : String)
    (es : List (String × String)) (u p a e : String) :
    (downloadAttempt net sha temp base es).1 = .error (.hashError u p a e) →
    p ∈ (downloadAttempt net sha temp base es).2.2 := by
  induction es with
  | nil => intro h; simp [downloadAttempt] at h
  | cons ent rest ih =>
      intro h
      rw [downloadAttempt_cons] at h ⊢
      cases hdr : (hashed_download net sha (entryUrl base ent) temp ent.2).1 with
      | error err =>
          simp only [hdr] at h ⊢
          cases h
          obtain ⟨_, _, _, hfiles⟩ :=
            hashed_download_hash_inv net sha (entryUrl base ent) temp ent.2 u p a e hdr
          simp [hfiles]
      | ok q =>
          simp only [hdr] at h ⊢
          cases hrr : (downloadAttempt net sha temp base rest).1 with
          | error err =>
              simp only [hrr, Except.map] at h
              cases h
              rw [hrr] at ih
              have := ih rfl
              simp [this]
          | ok psr => simp [hrr, Except.map] at h

theorem hashed_downloadsGo_cons (net : Network) (sha : HashFn) (temp : String)
    (entries : List (String × String)) (base : String) (rest : List String)
    (saved : Option String) :
    hashed_downloadsGo net sha temp entries (base :: rest) saved =
      match (downloadAttempt net sha temp base entries).1 with
      | .ok paths => (.ok paths, (downloadAttempt net sha temp base entries).2.1,
          (downloadAttempt net sha temp base entries).2.2)
      | .error (.urlError e) =>
          ((hashed_downloadsGo net sha temp entries rest (some e)).1,
           (downloadAttempt net sha temp base entries).2.1 ++
             (hashed_downloadsGo net sha temp entries rest (some e)).2.1,
           (downloadAttempt net sha temp base entries).2.2 ++
             (hashed_downloadsGo net sha temp entries rest (some e)).2.2)
      | .error e => (.error e, (downloadAttempt net sha temp base entries).2.1,
          (downloadAttempt net sha temp base entries).2.2) := rfl

theorem go_saved_irrel (net : Network) (sha : HashFn) (temp : String)
    (entries : List (String × String)) (base : String) (rest : List String)
    (s1 s2 : Option String) :
    hashed_downloadsGo net sha temp entries (base :: rest) s1 =
    hashed_downloadsGo net sha temp entries (base :: rest) s2 := by
  rw [hashed_downloadsGo_cons, hashed_downloadsGo_cons]

theorem go_skip_url_failures (net : Network) (sha : HashFn) (temp : String)
    (entries : List (String × String)) (b : String) (post : List String) :
    ∀ pre : List String,
    (∀ x ∈ pre, ∃ m, (downloadAttempt net sha temp x entries).1 = .error (.urlError m)) →
    ∀ saved : Option String,
    hashed_downloadsGo net sha temp entries (pre ++ b :: post) saved =
      ((hashed_downloadsGo net sha temp entries (b :: post) none).1,
       (pre.map fun x => (downloadAttempt net sha temp x entries).2.1).flatten
         ++ (hashed_downloadsGo net sha temp entries (b :: post) none).2.1,
       (pre.map fun x => (downloadAttempt net sha temp x entries).2.2).flatten
         ++ (hashed_downloadsGo net sha temp entries (b :: post) none).2.2) := by
  intro pre
  induction pre with
  | nil =>
      intro _ saved
      rw [List.nil_append, go_saved_irrel net sha temp entries b post saved none]
      simp
  | cons x pre ih =>
      intro h saved
      obtain ⟨m, hm⟩ := h x (List.mem_cons_self x pre)
      rw [List.cons_append, hashed_downloadsGo_cons]
      simp only [hm]
      rw [ih (fun y hy => h y (List.mem_cons_of_mem x hy)) (some m)]
      simp [List.append_assoc]

theorem go_hash_file_mem (net : Network) (sha : HashFn) (temp : String)
    (entries : List (String × String)) (u p a e : String) :
    ∀ (bases : List String) (saved : Option String),
    (hashed_downloadsGo net sha temp entries bases saved).1 = .error (.hashError u p a e) →
    p ∈ (hashed_downloadsGo net sha temp entries bases saved).2.2 := by
  intro bases
  induction bases with
  | nil => intro saved h; cases saved <;> simp [hashed_downloadsGo] at h
  | cons base rest ih =>
      intro saved h
      rw [hashed_downloadsGo_cons] at h ⊢
      cases hatt : (downloadAttempt net sha temp base entries).1 with
      | ok paths => simp only [hatt] at h; simp at h
      | error err =>
          cases err with
          | urlError m =>
              simp only [hatt] at h ⊢
              have hmem := ih (some m) h
              simp [hmem]
          | hashError u2 p2 a2 e2 =>
              simp only [hatt] at h ⊢
              simp at h
              obtain ⟨rfl, rfl, rfl, rfl⟩ := h
              exact downloadAttempt_hash_file_mem net sha temp base entries u2 p2 a2 e2 hatt
          | unboundLocalError => simp only [hatt] at h; simp at h

theorem go_some_not_unbound (net : Network) (sha : HashFn) (temp : String)
    (entries : List (String × String)) :
    ∀ (bases : List String) (e : String),
    (hashed_downloadsGo net sha temp entries bases (some e)).1 ≠
      .error .unboundLocalError := by
  intro bases
  induction bases with
  | nil => intro e; simp [hashed_downloadsGo]
  | cons base rest ih =>
      intro e
      rw [hashed_downloadsGo_cons]
      cases hatt : (downloadAttempt net sha temp base entries).1 with
      | ok paths => simp
      | error err =>
          cases err with
          | urlError m => simpa using ih m
          | hashError u2 p2 a2 e2 => simp
          | unboundLocalError =>
              exact absurd hatt (downloadAttempt_not_unbound net sha temp base entries)

theorem go_nonempty_not_unbound (net : Network) (sha : HashFn) (temp : String)
    (entries : List (String × String)) (base : String) (rest : List String)
    (saved : Option String) :
    (hashed_downloadsGo net sha temp entries (base :: rest) saved).1 ≠
      .error .unboundLocalError := by
  rw [hashed_downloadsGo_cons]
  cases hatt : (downloadAttempt net sha temp base entries).1 with
  | ok paths => simp
  | error err =>
      cases err with
      | urlError m => simpa using go_some_not_unbound net sha temp entries rest m
      | hashError u2 p2 a2 e2 => simp
      | unboundLocalError =>
          exact absurd hatt (downloadAttempt_not_unbound net sha temp base entries)

/-! ### Claims -/

/-- C8: on a successful fetch, the digest verifier compares the computed
SHA-256 hex digest of all downloaded bytes with the expected digest by exact
string equality; on mismatch it raises `HashError` carrying exactly the
source URL, the local path, the actual digest and the expected digest, and the
written file stays on disk; on match it returns the local path, which is the
URL's final path segment inside the target directory. -/
theorem hashed_download_digest_check (net : Network) (sha : HashFn)
    (url temp digest : String) (bytes : Bytes)
    (h : net url = .ok bytes) :
    (sha bytes = digest →
      hashed_download net sha url temp digest =
        (.ok (osPathJoin temp (lastUrlSegment url)),
         [osPathJoin temp (lastUrlSegment url)])) ∧
    (sha bytes ≠ digest →
      hashed_download net sha url temp digest =
        (.error (.hashError url (osPathJoin temp (lastUrlSegment url)) (sha bytes) digest),
         [osPathJoin temp (lastUrlSegment url)])) := by
  unfold hashed_download
  rw [h]
  constructor
  · intro hd; simp [hd]
  · intro hd; simp [hd]

theorem hashed_download_digest_check_witness :
    (tSha [1] = "d1" →
      hashed_download tNet tSha "http://b/packages/p1" "t" "d1" =
        (.ok (osPathJoin "t" (lastUrlSegment "http://b/packages/p1")),
         [osPathJoin "t" (lastUrlSegment "http://b/packages/p1")])) ∧
    (tSha [1] ≠ "d1" →
      hashed_download tNet tSha "http://b/packages/p1" "t" "d1" =
        (.error (.hashError "http://b/packages/p1"
            (osPathJoin "t" (lastUrlSegment "http://b/packages/p1")) (tSha [1]) "d1"),
         [osPathJoin "t" (lastUrlSegment "http://b/packages/p1")])) :=
  hashed_download_digest_check tNet tSha "http://b/packages/p1" "t" "d1" [1] rfl

/-- C9: for an https URL the fetcher's opener has the plain-HTTP handler
removed from its handler list; for an http URL the plain-HTTP handler is
retained. -/
theorem opener_http_handler_policy (url : String) :
    (urlScheme url = "https" → Handler.httpHandler ∉ openerForUrl url) ∧
    (urlScheme url = "http" → Handler.httpHandler ∈ openerForUrl url) := by
  constructor
  · intro h
    unfold openerForUrl
    rw [h]
    decide
  · intro h
    unfold openerForUrl
    rw [h]
    decide

theorem opener_http_handler_policy_witness :
    Handler.httpHandler ∉ openerForUrl "https://x/y" ∧
    Handler.httpHandler ∈ openerForUrl "http://x/y" :=
  ⟨(opener_http_handler_policy "https://x/y").1 (by decide),
   (opener_http_handler_policy "http://x/y").2 (by decide)⟩

/-- C10: the mirror selector returns a non-empty list for every environment,
so when the orchestrator exhausts all bases at least one network error was
saved and the final `raise saved_exc` is well-defined: run on any selector
output it never raises `UnboundLocalError`. -/
theorem mirrors_nonempty_saved_exc_defined :
    (∀ env : Option String, get_index_bases env ≠ []) ∧
    (∀ (net : Network) (sha : HashFn) (temp : String)
        (entries : List (String × String)) (env : Option String),
      (hashed_downloadsGo net sha temp entries (get_index_bases env) none).1 ≠
        .error .unboundLocalError) := by
  have hne : ∀ env : Option String, ∃ b rest, get_index_bases env = b :: rest := by
    intro env
    simp only [get_index_bases]
    split
    · exact ⟨_, _, rfl⟩
    · split
      · exact ⟨DEFAULT_INDEX_BASE, MIRRORS, rfl⟩
      · exact ⟨_, _, rfl⟩
  constructor
  · intro env
    obtain ⟨b, rest, hb⟩ := hne env
    simp [hb]
  · intro net sha temp entries env
    obtain ⟨b, rest, hb⟩ := hne env
    rw [hb]
    exact go_nonempty_not_unbound net sha temp entries b rest none

/-- C6 counterexample: with `PIPSTRAP_MIRRORS=https://mirror.example/` the
selector strips the trailing slash, so the returned list is not literally
`[override URL]`. -/
theorem get_index_bases_override_counterexample :
    get_index_bases (some "https://mirror.example/") ≠ ["https://mirror.example/"] := by
  decide

/-- C6 (amended): unset or empty `PIPSTRAP_MIRRORS` yields only the default
base; the value `"yes"` yields the default base followed by the hardcoded
mirrors in declared order; any other non-empty value yields the single-element
list holding the override URL with trailing slashes stripped, no fallback. -/
theorem get_index_bases_modes (env : Option String) :
    (env.getD "" = "" → get_index_bases env = [DEFAULT_INDEX_BASE]) ∧
    (env.getD "" = "yes" → get_index_bases env = DEFAULT_INDEX_BASE :: MIRRORS) ∧
    (env.getD "" ≠ "" → env.getD "" ≠ "yes" →
      get_index_bases env = [rstripSlashes (env.getD "")]) := by
  refine ⟨fun h => ?_, fun h => ?_, fun h1 h2 => ?_⟩
  · simp [get_index_bases, h]
  · simp +decide [get_index_bases, h]
  · simp [get_index_bases, h1, h2]

theorem get_index_bases_modes_witness :
    get_index_bases none = [DEFAULT_INDEX_BASE] ∧
    get_index_bases (some "yes") = DEFAULT_INDEX_BASE :: MIRRORS ∧
    get_index_bases (some "https://mirror.example/") =
      [rstripSlashes "https://mirror.example/"] :=
  ⟨(get_index_bases_modes none).1 rfl,
   (get_index_bases_modes (some "yes")).2.1 rfl,
   (get_index_bases_modes (some "https://mirror.example/")).2.2 (by decide) (by decide)⟩

/-- C2: when every mirror base fails with a `URLError`, the orchestrator
fails with the last recorded network error — the one raised by the final base
in the list. -/
theorem all_bases_fail_last_error_raised (net : Network) (sha : HashFn) (temp : String)
    (entries : List (String × String)) (bs : List String) (b : String) (e : String)
    (hbs : ∀ x ∈ bs, ∃ m,
      (downloadAttempt net sha temp x entries).1 = .error (.urlError m))
    (hb : (downloadAttempt net sha temp b entries).1 = .error (.urlError e)) :
    (hashed_downloadsGo net sha temp entries (bs ++ [b]) none).1 =
      .error (.urlError e) := by
  rw [go_skip_url_failures net sha temp entries b [] bs hbs none]
  dsimp only
  rw [hashed_downloadsGo_cons]
  simp only [hb]
  simp [hashed_downloadsGo]

theorem all_bases_fail_last_error_raised_witness :
    (hashed_downloadsGo t2Net tSha "t" [("p1", "d1")]
      (["http://m1"] ++ ["http://m2"]) none).1 = .error (.urlError "e2") :=
  all_bases_fail_last_error_raised t2Net tSha "t" [("p1", "d1")]
    ["http://m1"] "http://m2" "e2"
    (by
      intro x hx
      rw [List.mem_singleton] at hx
      subst hx
      exact ⟨"e1", rfl⟩)
    rfl

/-- C7: on the first base where every manifest entry downloads and verifies
(all earlier bases having failed with network errors), the orchestrator
returns the verified local paths, one per entry, in manifest order; bases are
tried strictly in list order and entries strictly in manifest order, the URLs
fetched being exactly the earlier attempts' followed by this base's entry
URLs; each entry URL is `base + '/packages/' + relative path`. -/
theorem first_good_base_returns_all_paths (net : Network) (sha : HashFn) (temp : String)
    (entries : List (String × String)) (pre post : List String) (b : String)
    (paths : List String)
    (hpre : ∀ x ∈ pre, ∃ m,
      (downloadAttempt net sha temp x entries).1 = .error (.urlError m))
    (hb : (downloadAttempt net sha temp b entries).1 = .ok paths) :
    (hashed_downloadsGo net sha temp entries (pre ++ b :: post) none).1 = .ok paths ∧
    paths = entries.map (fun ent => osPathJoin temp (lastUrlSegment (entryUrl b ent))) ∧
    (hashed_downloadsGo net sha temp entries (pre ++ b :: post) none).2.1 =
      (pre.map fun x => (downloadAttempt net sha temp x entries).2.1).flatten
        ++ entries.map (entryUrl b) ∧
    ∀ (base : String) (ent : String × String),
      entryUrl base ent = base ++ "/packages/" ++ ent.1 := by
  obtain ⟨hpaths, hurls⟩ := downloadAttempt_ok_inv net sha temp b entries paths hb
  rw [go_skip_url_failures net sha temp entries b post pre hpre none]
  dsimp only
  rw [hashed_downloadsGo_cons]
  simp only [hb]
  exact ⟨trivial, hpaths, by rw [hurls], fun base ent => rfl⟩

theorem first_good_base_returns_all_paths_witness :
    (hashed_downloadsGo tNet tSha "t" [("p1", "d1")]
      (["http://a"] ++ "http://b" :: ["http://c"]) none).1 = .ok ["t/p1"] ∧
    ["t/p1"] = [("p1", "d1")].map
      (fun ent => osPathJoin "t" (lastUrlSegment (entryUrl "http://b" ent))) ∧
    (hashed_downloadsGo tNet tSha "t" [("p1", "d1")]
      (["http://a"] ++ "http://b" :: ["http://c"]) none).2.1 =
      (["http://a"].map fun x =>
        (downloadAttempt tNet tSha "t" x [("p1", "d1")]).2.1).flatten
        ++ [("p1", "d1")].map (entryUrl "http://b") ∧
    ∀ (base : String) (ent : String × String),
      entryUrl base ent = base ++ "/packages/" ++ ent.1 :=
  first_good_base_returns_all_paths tNet tSha "t" [("p1", "d1")]
    ["http://a"] ["http://c"] "http://b" ["t/p1"]
    (by
      intro x hx
      rw [List.mem_singleton] at hx
      subst hx
      exact ⟨"refused", rfl⟩)
    rfl

/-- C1: if during a mirror attempt an entry's digest verification fails, the
orchestrator's outcome is that `HashError` and the URLs fetched stop at the
failing entry: the remaining entries of the attempt are not downloaded and no
subsequent mirror base is tried. -/
theorem hash_mismatch_aborts_whole_run (net : Network) (sha : HashFn) (temp : String)
    (es1 es2 : List (String × String)) (ent : String × String)
    (pre post : List String) (b : String) (u p a e : String)
    (hpre : ∀ x ∈ pre, ∃ m,
      (downloadAttempt net sha temp x (es1 ++ ent :: es2)).1 = .error (.urlError m))
    (hes1 : ∃ ps, (downloadAttempt net sha temp b es1).1 = .ok ps)
    (hent : (hashed_download net sha (entryUrl b ent) temp ent.2).1 =
      .error (.hashError u p a e)) :
    (hashed_downloadsGo net sha temp (es1 ++ ent :: es2) (pre ++ b :: post) none).1 =
      .error (.hashError u p a e) ∧
    (hashed_downloadsGo net sha temp (es1 ++ ent :: es2) (pre ++ b :: post) none).2.1 =
      (pre.map fun x =>
        (downloadAttempt net sha temp x (es1 ++ ent :: es2)).2.1).flatten
        ++ (es1.map (entryUrl b) ++ [entryUrl b ent]) := by
  obtain ⟨ps, hps⟩ := hes1
  obtain ⟨_, hurls1⟩ := downloadAttempt_ok_inv net sha temp b es1 ps hps
  have hcons := downloadAttempt_cons net sha temp b ent es2
  rw [hent] at hcons
  have happ := downloadAttempt_append net sha temp b es1 ps hps (ent :: es2)
  rw [hcons] at happ
  simp only [Except.map] at happ
  rw [go_skip_url_failures net sha temp (es1 ++ ent :: es2) b post pre hpre none]
  dsimp only
  rw [hashed_downloadsGo_cons]
  simp only [happ]
  constructor
  · trivial
  · rw [hurls1]

theorem hash_mismatch_aborts_whole_run_witness :
    (hashed_downloadsGo tNet tSha "t" ([("p1", "d1")] ++ ("p2", "d2") :: [("p3", "d3")])
      (["http://a"] ++ "http://b" :: ["http://c"]) none).1 =
      .error (.hashError "http://b/packages/p2" "t/p2" "x" "d2") ∧
    (hashed_downloadsGo tNet tSha "t" ([("p1", "d1")] ++ ("p2", "d2") :: [("p3", "d3")])
      (["http://a"] ++ "http://b" :: ["http://c"]) none).2.1 =
      (["http://a"].map fun x =>
        (downloadAttempt tNet tSha "t" x
          ([("p1", "d1")] ++ ("p2", "d2") :: [("p3", "d3")])).2.1).flatten
        ++ ([("p1", "d1")].map (entryUrl "http://b") ++
            [entryUrl "http://b" ("p2", "d2")]) :=
  hash_mismatch_aborts_whole_run tNet tSha "t" [("p1", "d1")] [("p3", "d3")]
    ("p2", "d2") ["http://a"] ["http://c"] "http://b"
    "http://b/packages/p2" "t/p2" "x" "d2"
    (by
      intro x hx
      rw [List.mem_singleton] at hx
      subst hx
      exact ⟨"refused", rfl⟩)
    ⟨["t/p1"], rfl⟩
    rfl

/-- C5: when the installed pip's version is at least the pinned target
(compared numerically per component), main returns success immediately: exit
code 0, nothing fetched, no temporary directory created, nothing raised. -/
theorem satisfied_version_short_circuits (entries : List (String × String)) (w : World)
    (hv : verLE (parseVersion PIP_VERSION) w.pip_version = true) :
    (mainWith entries w).exit = some 0 ∧
    (mainWith entries w).tempCreated = false ∧
    (mainWith entries w).fetched = [] ∧
    (mainWith entries w).raised = none := by
  simp [mainWith, hv]

theorem satisfied_version_short_circuits_witness :
    (mainWith [("p1", "d1")] ⟨(10, 0, 0), tNet, tSha, none, "t", true⟩).exit = some 0 ∧
    (mainWith [("p1", "d1")] ⟨(10, 0, 0), tNet, tSha, none, "t", true⟩).tempCreated = false ∧
    (mainWith [("p1", "d1")] ⟨(10, 0, 0), tNet, tSha, none, "t", true⟩).fetched = [] ∧
    (mainWith [("p1", "d1")] ⟨(10, 0, 0), tNet, tSha, none, "t", true⟩).raised = none :=
  satisfied_version_short_circuits [("p1", "d1")] ⟨(10, 0, 0), tNet, tSha, none, "t", true⟩ rfl

/-- C3: when the run ends on a `HashError`, main returns exit status 1, the
temporary workspace is created but not deleted, the printed diagnostic
contains the URL, the expected digest, the actual digest and the local path,
and the downloaded file is still on disk. -/
theorem hash_mismatch_main_outcome (entries : List (String × String)) (w : World)
    (u p a e : String)
    (hv : verLE (parseVersion PIP_VERSION) w.pip_version = false)
    (hdl : (hashed_downloadsGo w.net w.sha256hex w.tempDir entries
      (get_index_bases w.pipstrap_mirrors) none).1 = .error (.hashError u p a e)) :
    (mainWith entries w).exit = some 1 ∧
    (mainWith entries w).tempCreated = true ∧
    (mainWith entries w).tempRemoved = false ∧
    (∃ s1 s2 s3 s4 : String,
      (mainWith entries w).printed = some (u ++ s1 ++ e ++ s2 ++ a ++ s3 ++ p ++ s4)) ∧
    p ∈ (mainWith entries w).filesOnDisk := by
  have hmem := go_hash_file_mem w.net w.sha256hex w.tempDir entries u p a e
    (get_index_bases w.pipstrap_mirrors) none hdl
  simp only [mainWith, hv, Bool.false_eq_true, if_false, hdl]
  refine ⟨trivial, trivial, trivial,
    ⟨" did not match the expected hash ", ". Instead, it was ",
     ". The file (left at ", ") may have been tampered with.", rfl⟩, hmem⟩

theorem hash_mismatch_main_outcome_witness :
    (mainWith [("p1", "d1"), ("p2", "d2")]
      ⟨(1, 0, 0), tNet, tSha, some "http://b", "t", true⟩).exit = some 1 ∧
    (mainWith [("p1", "d1"), ("p2", "d2")]
      ⟨(1, 0, 0), tNet, tSha, some "http://b", "t", true⟩).tempCreated = true ∧
    (mainWith [("p1", "d1"), ("p2", "d2")]
      ⟨(1, 0, 0), tNet, tSha, some "http://b", "t", true⟩).tempRemoved = false ∧
    (∃ s1 s2 s3 s4 : String,
      (mainWith [("p1", "d1"), ("p2", "d2")]
        ⟨(1, 0, 0), tNet, tSha, some "http://b", "t", true⟩).printed =
        some ("http://b/packages/p2" ++ s1 ++ "d2" ++ s2 ++ "x" ++ s3 ++ "t/p2" ++ s4)) ∧
    "t/p2" ∈ (mainWith [("p1", "d1"), ("p2", "d2")]
      ⟨(1, 0, 0), tNet, tSha, some "http://b", "t", true⟩).filesOnDisk :=
  hash_mismatch_main_outcome [("p1", "d1"), ("p2", "d2")]
    ⟨(1, 0, 0), tNet, tSha, some "http://b", "t", true⟩
    "http://b/packages/p2" "t/p2" "x" "d2" rfl rfl

/-- C4: every downloading or installing failure that is not a `HashError` —
an exhausted-mirrors network error, the degenerate unbound `saved_exc`, or a
non-zero installer exit — removes the temporary workspace and is re-raised,
so `main` never returns and the process dies with a non-zero status. -/
theorem non_hash_errors_cleanup_and_reraise (entries : List (String × String)) (w : World)
    (hv : verLE (parseVersion PIP_VERSION) w.pip_version = false)
    (herr : (∃ m, (hashed_downloadsGo w.net w.sha256hex w.tempDir entries
          (get_index_bases w.pipstrap_mirrors) none).1 = .error (.urlError m)) ∨
        (hashed_downloadsGo w.net w.sha256hex w.tempDir entries
          (get_index_bases w.pipstrap_mirrors) none).1 = .error .unboundLocalError ∨
        ((∃ ps, (hashed_downloadsGo w.net w.sha256hex w.tempDir entries
          (get_index_bases w.pipstrap_mirrors) none).1 = .ok ps) ∧
          w.installOk = false)) :
    (mainWith entries w).tempRemoved = true ∧
    (mainWith entries w).exit = none ∧
    (∃ err, (mainWith entries w).raised = some err) ∧
    (mainWith entries w).filesOnDisk = [] := by
  rcases herr with ⟨m, hdl⟩ | hdl | ⟨⟨ps, hdl⟩, hio⟩
  · simp [mainWith, hv, hdl]
  · simp [mainWith, hv, hdl]
  · simp [mainWith, hv, hdl, hio]

theorem non_hash_errors_cleanup_and_reraise_witness :
    (mainWith [("p1", "d1")]
      ⟨(1, 0, 0), t2Net, tSha, some "http://m1", "t", true⟩).tempRemoved = true ∧
    (mainWith [("p1", "d1")]
      ⟨(1, 0, 0), t2Net, tSha, some "http://m1", "t", true⟩).exit = none ∧
    (∃ err, (mainWith [("p1", "d1")]
      ⟨(1, 0, 0), t2Net, tSha, some "http://m1", "t", true⟩).raised = some err) ∧
    (mainWith [("p1", "d1")]
      ⟨(1, 0, 0), t2Net, tSha, some "http://m1", "t", true⟩).filesOnDisk = [] :=
  non_hash_errors_cleanup_and_reraise [("p1", "d1")]
    ⟨(1, 0, 0), t2Net, tSha, some "http://m1", "t", true⟩ rfl
    (Or.inl ⟨"e1", rfl⟩)

end Pipstrap
